import Mathlib

/-!
Verification of the xyplug-ai plugin (src/index.js), a command-line adapter
that reads a JSON job from standard input, forwards a prompt to an AI
provider, and writes exactly one JSON envelope to standard output.

The embedding below models JavaScript strings as `List Char`, JavaScript
values (as they can occur after `JSON.parse` of the job input, plus
`undefined`) as the inductive `JVal`, the environment as an association
list, and the single outbound `generateText` call as an input function
from the built request to either a result value or a thrown error.
Numeric values are modelled exactly, as canonical decimal fractions
(`DecNum`), rather than as IEEE doubles; every number the program can see
originates in a decimal (or radix-prefixed integer) literal and is
representable this way, and no claim below depends on rounding.
-/

/-- Shorthand turning a Lean string literal into the `List Char`
representation used for JavaScript strings throughout. -/
def S (s : String) : List Char := s.toList

/-- Whitespace class used by JavaScript `String.prototype.trim` and by the
regexp class `\s`: ASCII whitespace plus the Unicode space characters. -/
def jsWsB (c : Char) : Bool :=
  c = ' ' || c = '\t' || c = '\n' || c = '\r' || c.toNat = 0x0b || c.toNat = 0x0c ||
  c.toNat = 0xa0 || c.toNat = 0x1680 || (0x2000 ≤ c.toNat && c.toNat ≤ 0x200a) ||
  c.toNat = 0x2028 || c.toNat = 0x2029 || c.toNat = 0x202f || c.toNat = 0x205f ||
  c.toNat = 0x3000 || c.toNat = 0xfeff

/-- Drop leading JavaScript whitespace. -/
def trimStart (s : List Char) : List Char := s.dropWhile jsWsB

/-- Drop trailing JavaScript whitespace. -/
def trimEnd (s : List Char) : List Char := (s.reverse.dropWhile jsWsB).reverse

/-- Model of JavaScript `String.prototype.trim`. -/
def trimChars (s : List Char) : List Char := trimEnd (trimStart s)

/-- ASCII lowering of one character; model of `toLowerCase` restricted to
the ASCII range, which is all the source ever lowercases (provider names,
the fence tag `json`, the literal `true`, the prefix `local/`). -/
def lowerChar (c : Char) : Char :=
  if 'A' ≤ c ∧ c ≤ 'Z' then Char.ofNat (c.toNat + 32) else c

/-- Model of `String.prototype.toLowerCase` (ASCII). -/
def lowerStr (s : List Char) : List Char := s.map lowerChar

/-- An exact decimal number `mant / 10 ^ scale`, kept canonical (scale 0,
or a mantissa not divisible by 10); two canonical values are numerically
equal exactly when they are structurally equal. -/
structure DecNum where
  mant : Int
  scale : Nat
deriving DecidableEq

/-- Strip factors of 10 shared by mantissa and scale; the fuel is the
scale itself, which bounds the number of strippable factors. -/
def canonDN : Nat → Int → Nat → DecNum
  | 0, m, s => ⟨m, s⟩
  | f + 1, m, s =>
    if s = 0 then ⟨m, 0⟩
    else if m = 0 then ⟨0, 0⟩
    else if m % 10 = 0 then canonDN f (m / 10) (s - 1)
    else ⟨m, s⟩

/-- Canonical decimal number with value `m / 10 ^ s`. -/
def DecNum.mk10 (m : Int) (s : Nat) : DecNum := canonDN s m s

/-- The integer `n` as a decimal number. -/
def DecNum.ofInt (n : Int) : DecNum := ⟨n, 0⟩

instance : OfNat DecNum n := ⟨⟨(n : Int), 0⟩⟩

/-- JavaScript values as they can flow through the plugin: everything
`JSON.parse` can produce, plus `undefined` for absent properties. -/
inductive JVal where
  | undefined
  | null
  | bool (b : Bool)
  | num (d : DecNum)
  | str (s : List Char)
  | arr (elems : List JVal)
  | obj (fields : List (List Char × JVal))

/-- JavaScript truthiness (the model has no NaN: job values come from
`JSON.parse`, which cannot produce NaN or infinities). -/
def truthy : JVal → Bool
  | .undefined => false
  | .null => false
  | .bool b => b
  | .num d => d.mant ≠ 0
  | .str s => s ≠ []
  | .arr _ => true
  | .obj _ => true

/-- Whether a value is a JavaScript string. -/
def JVal.isStr : JVal → Bool
  | .str _ => true
  | _ => false

/-- Model of the JavaScript expression `v || d`. -/
def jsOr (v d : JVal) : JVal := if truthy v then v else d

/-- Decimal digits of a natural number, most significant first. -/
def natDigits (n : Nat) : List Char := Nat.toDigits 10 n

/-- Decimal rendering of a nonnegative mantissa at the given scale: the
digits with a decimal point inserted `s` places from the right, zero
padded on the left as needed. -/
def dnToStringNN (m s : Nat) : List Char :=
  if s = 0 then natDigits m
  else
    let ds := natDigits m
    let pad := if ds.length ≤ s then List.replicate (s + 1 - ds.length) '0' ++ ds else ds
    pad.take (pad.length - s) ++ '.' :: pad.drop (pad.length - s)

/-- Model of JavaScript number-to-string conversion; on a canonical
decimal this matches the shortest-representation printing JavaScript uses
for the moderate magnitudes that occur here (the exponent notation used
for very large or very small magnitudes is not modelled; no claim
exercises it). -/
def qToString (d : DecNum) : List Char :=
  if d.mant < 0 then '-' :: dnToStringNN (-d.mant).toNat d.scale
  else dnToStringNN d.mant.toNat d.scale

mutual

/-- Model of JavaScript `String(v)` coercion. Arrays stringify as their
elements joined by commas with `null`/`undefined` elements rendered empty,
exactly as `Array.prototype.toString` does. -/
def jsToString : JVal → List Char
  | .undefined => S "undefined"
  | .null => S "null"
  | .bool true => S "true"
  | .bool false => S "false"
  | .num q => qToString q
  | .str s => s
  | .arr xs => arrJoin xs
  | .obj _ => S "[object Object]"

/-- Comma-join of array elements for `Array.prototype.toString`. -/
def arrJoin : List JVal → List Char
  | [] => []
  | [v] =>
    match v with
    | .undefined => []
    | .null => []
    | v => jsToString v
  | v :: vs =>
    (match v with
     | .undefined => []
     | .null => []
     | v => jsToString v) ++ ',' :: arrJoin vs

end

/-- Digit test for ASCII decimal digits. -/
def isDigitC (c : Char) : Bool := '0' ≤ c && c ≤ '9'

/-- Numeric value of an ASCII decimal digit. -/
def digVal (c : Char) : Nat := c.toNat - '0'.toNat

/-- Value of a most-significant-first list of decimal digits. -/
def digitsToNat (ds : List Char) : Nat := ds.foldl (fun a c => a * 10 + digVal c) 0

/-- Value of a hexadecimal digit, if the character is one. -/
def hexVal (c : Char) : Option Nat :=
  if '0' ≤ c ∧ c ≤ '9' then some (c.toNat - '0'.toNat)
  else if 'a' ≤ c ∧ c ≤ 'f' then some (c.toNat - 'a'.toNat + 10)
  else if 'A' ≤ c ∧ c ≤ 'F' then some (c.toNat - 'A'.toNat + 10)
  else none

/-- Value of a digit string in the given radix, or none when some character
is not a digit of that radix. -/
def radixNum (radix : Nat) (ds : List Char) : Option Nat :=
  ds.foldl
    (fun acc c =>
      match acc, hexVal c with
      | some a, some v => if v < radix then some (a * radix + v) else none
      | _, _ => none)
    (some 0)

/-- Value of a decimal literal with sign, integer digits, fraction digits
and a decimal exponent, as a canonical decimal number. -/
def decToNum (neg : Bool) (ip fp : List Char) (ex : Int) : DecNum :=
  let m0 : Int := (digitsToNat (ip ++ fp) : Int)
  let m1 := if neg then -m0 else m0
  let s0 : Int := (fp.length : Int) - ex
  if s0 ≤ 0 then DecNum.mk10 (m1 * 10 ^ (-s0).toNat) 0
  else DecNum.mk10 m1 s0.toNat

/-- Exponent tail of a decimal literal (after the `e`): optional sign then
at least one digit, consuming the rest. -/
def parseExpTail (r : List Char) : Option (Int × List Char) :=
  let sr : Int × List Char :=
    match r with
    | '+' :: r2 => (1, r2)
    | '-' :: r2 => (-1, r2)
    | r2 => (1, r2)
  let (ed, r2) := sr.2.span isDigitC
  if ed = [] then none else some (sr.1 * (digitsToNat ed : Int), r2)

/-- Decimal form accepted by JavaScript `Number()` after the optional
sign: digits, optional fraction, optional exponent; the whole remainder
must be consumed. -/
def parseDecFull (s : List Char) : Option DecNum :=
  let (ip, r1) := s.span isDigitC
  let fpr : List Char × List Char :=
    match r1 with
    | '.' :: r => r.span isDigitC
    | _ => ([], r1)
  let fp := fpr.1
  if ip = [] ∧ fp = [] then none
  else
    match fpr.2 with
    | [] => some (decToNum false ip fp 0)
    | 'e' :: r3 =>
      match parseExpTail r3 with
      | some (ex, []) => some (decToNum false ip fp ex)
      | _ => none
    | 'E' :: r3 =>
      match parseExpTail r3 with
      | some (ex, []) => some (decToNum false ip fp ex)
      | _ => none
    | _ => none

/-- Unsigned body of a `Number()` string: `Infinity` is non-finite and is
mapped to none, which the only caller (`parseNumber`) treats exactly like
NaN, matching the `Number.isFinite` guard in the source. -/
def decOrInf (r : List Char) : Option DecNum :=
  if r = S "Infinity" then none else parseDecFull r

/-- Negation of a canonical decimal (still canonical). -/
def DecNum.neg (d : DecNum) : DecNum := ⟨-d.mant, d.scale⟩

/-- Model of JavaScript `Number(string)`: trimmed; empty means 0; radix
prefixes `0x`/`0o`/`0b` (unsigned only); otherwise an optionally signed
decimal. Unparsable strings are NaN, modelled as none. -/
def strToNum (s : List Char) : Option DecNum :=
  let t := trimChars s
  match t with
  | [] => some 0
  | '0' :: x :: rest =>
    if x = 'x' ∨ x = 'X' then
      (if rest = [] then none else (radixNum 16 rest).map (fun n => DecNum.ofInt n))
    else if x = 'o' ∨ x = 'O' then
      (if rest = [] then none else (radixNum 8 rest).map (fun n => DecNum.ofInt n))
    else if x = 'b' ∨ x = 'B' then
      (if rest = [] then none else (radixNum 2 rest).map (fun n => DecNum.ofInt n))
    else
      match t with
      | '+' :: r => decOrInf r
      | '-' :: r => (decOrInf r).map DecNum.neg
      | r => decOrInf r
  | _ =>
    match t with
    | '+' :: r => decOrInf r
    | '-' :: r => (decOrInf r).map DecNum.neg
    | r => decOrInf r

/-- Model of JavaScript `Number(v)` coercion on the values of the model;
none stands for NaN (and infinities, which the caller treats alike). -/
def jsToNumber : JVal → Option DecNum
  | .undefined => none
  | .null => some 0
  | .bool true => some 1
  | .bool false => some 0
  | .num d => some d
  | .str s => strToNum s
  | .arr xs => strToNum (jsToString (.arr xs))
  | .obj _ => none

/-- Model of `parseNumber` (src/index.js lines 70-74): absent, null or
empty-string input yields the fallback, as does a non-finite conversion. -/
def parseNumber (value : JVal) (fallback : Option DecNum) : Option DecNum :=
  match value with
  | .undefined => fallback
  | .null => fallback
  | .str [] => fallback
  | v =>
    match jsToNumber v with
    | some q => some q
    | none => fallback

/-- Last-write-wins object field lookup; `undefined` when absent. Objects
built by this model never hold duplicate keys. -/
def objLookup (fields : List (List Char × JVal)) (k : List Char) : JVal :=
  match fields.lookup k with
  | some v => v
  | none => .undefined

/-- Model of JavaScript property access `v[k]`: throws a TypeError on
`undefined`/`null` receivers (message text as in Node), yields `undefined` on
primitives and absent keys. -/
def jsGet (v : JVal) (k : List Char) : Except (List Char) JVal :=
  match v with
  | .undefined =>
    .error (S "Cannot read properties of undefined (reading \x27" ++ k ++ S "\x27)")
  | .null =>
    .error (S "Cannot read properties of null (reading \x27" ++ k ++ S "\x27)")
  | .obj fs => .ok (objLookup fs k)
  | _ => .ok .undefined

/-- JSON whitespace accepted by `JSON.parse` between tokens. -/
def isJsonWs (c : Char) : Bool := c = ' ' || c = '\t' || c = '\n' || c = '\r'

/-- Drop leading JSON whitespace. -/
def skipWs (s : List Char) : List Char := s.dropWhile isJsonWs

/-- Body of a JSON string literal, after the opening quote: returns the
decoded content and the remainder after the closing quote. Escapes follow
the JSON grammar; a surrogate pair of `\u` escapes decodes to the coded
character, while a lone surrogate (unrepresentable in a Lean `Char`)
decodes to U+FFFD — a modelling artifact no claim exercises. -/
def parseStrBody : Nat → List Char → Option (List Char × List Char)
  | 0, _ => none
  | _ + 1, [] => none
  | _ + 1, '"' :: rest => some ([], rest)
  | f + 1, '\\' :: esc =>
    match esc with
    | '"' :: r => (parseStrBody f r).map (fun p => ('"' :: p.1, p.2))
    | '\\' :: r => (parseStrBody f r).map (fun p => ('\\' :: p.1, p.2))
    | '/' :: r => (parseStrBody f r).map (fun p => ('/' :: p.1, p.2))
    | 'b' :: r => (parseStrBody f r).map (fun p => (Char.ofNat 8 :: p.1, p.2))
    | 'f' :: r => (parseStrBody f r).map (fun p => (Char.ofNat 12 :: p.1, p.2))
    | 'n' :: r => (parseStrBody f r).map (fun p => ('\n' :: p.1, p.2))
    | 'r' :: r => (parseStrBody f r).map (fun p => ('\r' :: p.1, p.2))
    | 't' :: r => (parseStrBody f r).map (fun p => ('\t' :: p.1, p.2))
    | 'u' :: h1 :: h2 :: h3 :: h4 :: r =>
      match hexVal h1, hexVal h2, hexVal h3, hexVal h4 with
      | some a, some b, some c, some d =>
        let code := ((a * 16 + b) * 16 + c) * 16 + d
        if 0xd800 ≤ code ∧ code ≤ 0xdbff then
          match r with
          | '\\' :: 'u' :: g1 :: g2 :: g3 :: g4 :: r2 =>
            match hexVal g1, hexVal g2, hexVal g3, hexVal g4 with
            | some e1, some e2, some e3, some e4 =>
              let lo := ((e1 * 16 + e2) * 16 + e3) * 16 + e4
              if 0xdc00 ≤ lo ∧ lo ≤ 0xdfff then
                (parseStrBody f r2).map (fun p =>
                  (Char.ofNat (0x10000 + (code - 0xd800) * 0x400 + (lo - 0xdc00)) :: p.1, p.2))
              else (parseStrBody f r).map (fun p => (Char.ofNat 0xfffd :: p.1, p.2))
            | _, _, _, _ => (parseStrBody f r).map (fun p => (Char.ofNat 0xfffd :: p.1, p.2))
          | _ => (parseStrBody f r).map (fun p => (Char.ofNat 0xfffd :: p.1, p.2))
        else if 0xdc00 ≤ code ∧ code ≤ 0xdfff then
          (parseStrBody f r).map (fun p => (Char.ofNat 0xfffd :: p.1, p.2))
        else
          (parseStrBody f r).map (fun p => (Char.ofNat code :: p.1, p.2))
      | _, _, _, _ => none
    | _ => none
  | f + 1, c :: rest =>
    if c.toNat < 32 then none
    else (parseStrBody f rest).map (fun p => (c :: p.1, p.2))

/-- JSON number literal at the head of the input: strict JSON grammar (no
leading zeros, a fraction needs at least one digit). -/
def parseNumLit (s : List Char) : Option (DecNum × List Char) :=
  let ns : Bool × List Char :=
    match s with
    | '-' :: r => (true, r)
    | _ => (false, s)
  let (ip, s2) := ns.2.span isDigitC
  if ip = [] then none
  else if 1 < ip.length ∧ ip.head? = some '0' then none
  else
    let fps : List Char × List Char × Bool :=
      match s2 with
      | '.' :: r =>
        let (d, r2) := r.span isDigitC
        (d, r2, !d.isEmpty)
      | _ => ([], s2, true)
    if fps.2.2 = false then none
    else
      let exr : Option (Int × List Char) :=
        match fps.2.1 with
        | 'e' :: r3 => parseExpTail r3
        | 'E' :: r3 => parseExpTail r3
        | r3 => some (0, r3)
      match exr with
      | none => none
      | some (ex, rest) => some (decToNum ns.1 ip fps.1 ex, rest)

/-- Insert a field into an object, overwriting the value at an existing
key in place (JavaScript duplicate-key semantics: first position, last
value). -/
def objInsert (fs : List (List Char × JVal)) (k : List Char) (v : JVal) :
    List (List Char × JVal) :=
  if fs.any (fun p => decide (p.1 = k)) then
    fs.map (fun p => if p.1 = k then (k, v) else p)
  else fs ++ [(k, v)]

/-- Collapse duplicate keys of a parsed member list, later values winning. -/
def dedupFields (fs : List (List Char × JVal)) : List (List Char × JVal) :=
  fs.foldl (fun acc p => objInsert acc p.1 p.2) []

mutual

/-- JSON value at the head of the input, fuelled; returns the value and the
unconsumed remainder. -/
def parseVal : Nat → List Char → Option (JVal × List Char)
  | 0, _ => none
  | f + 1, s =>
    let t := skipWs s
    if (S "true").isPrefixOf t then some (.bool true, t.drop 4)
    else if (S "false").isPrefixOf t then some (.bool false, t.drop 5)
    else if (S "null").isPrefixOf t then some (.null, t.drop 4)
    else
      match t with
      | '"' :: r => (parseStrBody (r.length + 1) r).map (fun p => (.str p.1, p.2))
      | '[' :: r =>
        (match skipWs r with
         | ']' :: r2 => some (.arr [], r2)
         | t2 => (parseArrItems f t2).map (fun p => (.arr p.1, p.2)))
      | '\x7b' :: r =>
        (match skipWs r with
         | '\x7d' :: r2 => some (.obj [], r2)
         | t2 => (parseObjItems f t2).map (fun p => (.obj (dedupFields p.1), p.2)))
      | _ => (parseNumLit t).map (fun p => (.num p.1, p.2))

/-- Comma-separated array elements, ending at the closing bracket. -/
def parseArrItems : Nat → List Char → Option (List JVal × List Char)
  | 0, _ => none
  | f + 1, s =>
    match parseVal f s with
    | none => none
    | some (v, r1) =>
      match skipWs r1 with
      | ',' :: r2 => (parseArrItems f r2).map (fun p => (v :: p.1, p.2))
      | ']' :: r2 => some ([v], r2)
      | _ => none

/-- Comma-separated object members, ending at the closing brace. -/
def parseObjItems : Nat → List Char → Option (List (List Char × JVal) × List Char)
  | 0, _ => none
  | f + 1, s =>
    match skipWs s with
    | '"' :: r =>
      (match parseStrBody (r.length + 1) r with
       | none => none
       | some (k, r1) =>
         match skipWs r1 with
         | ':' :: r2 =>
           (match parseVal f r2 with
            | none => none
            | some (v, r3) =>
              match skipWs r3 with
              | ',' :: r4 => (parseObjItems f r4).map (fun p => ((k, v) :: p.1, p.2))
              | '\x7d' :: r4 => some ([(k, v)], r4)
              | _ => none)
         | _ => none)
    | _ => none

end

/-- Model of `JSON.parse`: a single JSON value surrounded only by JSON
whitespace; none models a thrown SyntaxError. The fuel bound exceeds any
possible nesting plus element count, so it never cuts a parse short. -/
def parseJson (s : List Char) : Option JVal :=
  match parseVal (s.length + 1) s with
  | some (v, rest) => if skipWs rest = [] then some v else none
  | none => none

/-- The triple-backtick fence delimiter. -/
def fenceMark : List Char := S "```"

/-- Index of the first occurrence of `pat` as a contiguous sublist. -/
def findSub (pat : List Char) : List Char → Option Nat
  | [] => if pat.isPrefixOf ([] : List Char) then some 0 else none
  | x :: xs => if pat.isPrefixOf (x :: xs) then some 0 else (findSub pat xs).map (· + 1)

/-- Raw region captured by the fenced-block regexp
(three backticks, an optional case-insensitive `json` tag, a lazy group,
three backticks). The leftmost match starts at the first fence; the
optional tag is consumed greedily when present; the lazy group then ends
at the next fence. The two whitespace groups around the capture are
dropped here because the caller re-trims the captured group, which yields
the same candidate. Returns the region between the tag (or opening fence)
and the closing fence, or none when the regexp does not match. -/
def fenceInner (s : List Char) : Option (List Char) :=
  match findSub fenceMark s with
  | none => none
  | some i =>
    let rest := s.drop (i + 3)
    let rest2 := if lowerStr (rest.take 4) = S "json" then rest.drop 4 else rest
    match findSub fenceMark rest2 with
    | none => none
    | some j => some (rest2.take j)

/-- Whether the outer characters of the candidate are a matching brace or
bracket pair (`startsWith`/`endsWith` checks of src/index.js line 94). -/
def braceOk (c : List Char) : Bool :=
  (c.head? == some '\x7b' && c.getLast? == some '\x7d') ||
  (c.head? == some '[' && c.getLast? == some ']')

/-- Result of `extractJson`: the parsed value, if any, and the candidate
text retained for error reporting, if any. -/
structure ExtractOut where
  parsed : Option JVal
  jsonText : Option (List Char)

/-- The candidate text `extractJson` settles on: the trimmed input, or the
trimmed content of the first fenced block when one is present
(src/index.js lines 90-92). -/
def candidateOf (text : List Char) : List Char :=
  let c0 := trimChars text
  match fenceInner c0 with
  | some inner => trimChars inner
  | none => c0

/-- Tail of `extractJson` (src/index.js lines 93-102): empty candidate or
failed outer-pair check yield nothing; otherwise the candidate is parsed,
and is retained as `jsonText` whether or not the parse succeeds. -/
def jsonBody (candidate : List Char) : ExtractOut :=
  if candidate = [] then ⟨none, none⟩
  else if braceOk candidate then
    match parseJson candidate with
    | some v => ⟨some v, some candidate⟩
    | none => ⟨none, some candidate⟩
  else ⟨none, none⟩

/-- Model of `extractJson` (src/index.js lines 88-103). -/
def extractJson (text : List Char) : ExtractOut :=
  if text = [] then ⟨none, none⟩
  else jsonBody (candidateOf text)

/-- Split on the regexp `\r?\n|,` (src/index.js line 81): a comma, a bare
newline or a CRLF pair separates; a lone carriage return does not. -/
def splitStops : List Char → List (List Char)
  | [] => [[]]
  | '\r' :: '\n' :: rest => [] :: splitStops rest
  | '\n' :: rest => [] :: splitStops rest
  | ',' :: rest => [] :: splitStops rest
  | c :: rest =>
    match splitStops rest with
    | r :: rs => (c :: r) :: rs
    | [] => [[c]]

/-- Model of `parseStopSequences` (src/index.js lines 77-85). Note the
array branch returns its filtered list directly, even when that list is
empty; only the string branch maps an empty part list back to none. -/
def parseStopSequences (value : JVal) : Option (List (List Char)) :=
  if truthy value = false then none
  else
    match value with
    | .arr xs => some ((xs.map jsToString).filter (fun s => !s.isEmpty))
    | v =>
      let parts := ((splitStops (jsToString v)).map trimChars).filter (fun s => !s.isEmpty)
      if parts = [] then none else some parts

/-- Split at every occurrence of a character, JavaScript
`String.prototype.split` semantics (an empty string yields one empty
part). -/
def splitOnChar (c : Char) : List Char → List (List Char)
  | [] => [[]]
  | x :: xs =>
    if x = c then [] :: splitOnChar c xs
    else
      match splitOnChar c xs with
      | r :: rs => (x :: r) :: rs
      | [] => [[x]]

/-- Join parts with a single-character separator (`Array.prototype.join`). -/
def joinOn (c : Char) : List (List Char) → List Char
  | [] => []
  | [x] => x
  | x :: xs => x ++ c :: joinOn c xs

/-- Model of `normalizeModel` (src/index.js lines 106-114): trim the
string coercion, split on every slash, require at least two parts,
lower-case the first and re-join the rest with slashes. -/
def normalizeModel (value : JVal) : Option (List Char × List Char) :=
  let raw := trimChars (jsToString (jsOr value (.str [])))
  if raw = [] then none
  else
    let parts := splitOnChar '/' raw
    if parts.length < 2 then none
    else
      match parts with
      | [] => none
      | p :: rest => some (lowerStr p, joinOn '/' rest)

/-- The process environment: an association list from variable name to
value. A variable set to the empty string is indistinguishable from an
unset one to the source, which only ever reads variables through the
falsiness-based chain in `resolveApiKey`. -/
abbrev Env := List (List Char × List Char)

/-- Value of an environment variable, empty when unset. -/
def envStr (env : Env) (name : List Char) : List Char :=
  match env.lookup name with
  | some v => v
  | none => []

/-- The PROVIDER_ENV table (src/index.js lines 30-40). -/
def PROVIDER_ENV : List (List Char × List Char) :=
  [(S "anthropic", S "ANTHROPIC_API_KEY"), (S "cohere", S "COHERE_API_KEY"),
   (S "deepseek", S "DEEPSEEK_API_KEY"), (S "google", S "GOOGLE_API_KEY"),
   (S "groq", S "GROQ_API_KEY"), (S "mistral", S "MISTRAL_API_KEY"),
   (S "openai", S "OPENAI_API_KEY"), (S "local", S "LOCAL_API_KEY"),
   (S "xai", S "XAI_API_KEY")]

/-- Provider-specific key variable name, if the provider is known. -/
def providerEnvVar (provider : List Char) : Option (List Char) :=
  PROVIDER_ENV.lookup provider

/-- Model of `resolveApiKey` (src/index.js lines 117-119). For an unknown
provider, `PROVIDER_ENV[provider]` is `undefined` and the lookup reads the
environment variable literally named `undefined`, as the source does. -/
def resolveApiKey (env : Env) (provider : List Char) : List Char :=
  let name := (providerEnvVar provider).getD (S "undefined")
  let v1 := envStr env name
  if v1 ≠ [] then v1 else envStr env (S "AI_API_KEY")

/-- Keys of the PROVIDERS factory table, in insertion order
(src/index.js lines 17-27). -/
def providerNames : List (List Char) :=
  [S "anthropic", S "cohere", S "deepseek", S "google", S "groq", S "mistral",
   S "openai", S "local", S "xai"]

/-- The OPTIONAL_KEY_PROVIDERS set (src/index.js line 43), empty. -/
def optionalKeyProviders : List (List Char) := []

/-- Lexicographic comparison of UTF-16-ish strings, the default
`Array.prototype.sort` order for the ASCII provider names. -/
def lexLe : List Char → List Char → Bool
  | [], _ => true
  | _ :: _, [] => false
  | a :: as, b :: bs => if a = b then lexLe as bs else decide (a < b)

/-- Insertion into a lexicographically sorted list. -/
def insertSorted (x : List Char) : List (List Char) → List (List Char)
  | [] => [x]
  | y :: ys => if lexLe x y then x :: y :: ys else y :: insertSorted x ys

/-- Insertion sort, modelling `Object.keys(PROVIDERS).sort()`. -/
def sortStrs (xs : List (List Char)) : List (List Char) :=
  xs.foldr insertSorted []

/-- Join with a multi-character separator (`Array.prototype.join`). -/
def joinSep (sep : List Char) : List (List Char) → List Char
  | [] => []
  | [x] => x
  | x :: xs => x ++ sep ++ joinSep sep xs

/-- The sorted, comma-joined provider list used in the unsupported-provider
message (src/index.js line 181). -/
def supportedSorted : List Char := joinSep (S ", ") (sortStrs providerNames)

/-- Model of the `expectJson` flag (src/index.js line 191). -/
def expectJson (v : JVal) : Bool :=
  decide (lowerStr (jsToString (jsOr v (.str []))) = S "true") ||
  (match v with
   | .bool true => true
   | _ => false)

/-- The single output envelope. `success data` serializes as
`xy:1, code:0, data`; `failure kind msg` as `xy:1, code:kind,
description:msg` (writeExit and fail, src/index.js lines 46-53). Both
paths exit the process with code 0. -/
inductive Envelope where
  | success (data : JVal)
  | failure (code : List Char) (description : List Char)

/-- The failure kind of an envelope, none for a success. -/
def failKind : Envelope → Option (List Char)
  | .success _ => none
  | .failure c _ => some c

/-- Message for an unparsable candidate (src/index.js line 221). -/
def invalidJsonMsg : List Char := S "Invalid JSON returned by model."

/-- Message for a response with no JSON candidate (src/index.js line 221). -/
def noJsonMsg : List Char := S "No JSON returned by model."

/-- Truthiness of `jsonResult.parsed` as JavaScript evaluates it. -/
def optValTruthy : Option JVal → Bool
  | some v => truthy v
  | none => false

/-- Truthiness of `jsonResult.jsonText` as JavaScript evaluates it. -/
def optStrTruthy : Option (List Char) → Bool
  | some s => !s.isEmpty
  | none => false

/-- Model of the response interpretation (src/index.js lines 216-227):
given the JSON-expectation flag and the response text, decide between the
json-kind failure and the success envelope carrying either the parsed
value or the original text. -/
def respond (ej : Bool) (text : List Char) : Envelope :=
  let r := extractJson text
  if ej && !optValTruthy r.parsed then
    .failure (S "json") (if optStrTruthy r.jsonText then invalidJsonMsg else noJsonMsg)
  else
    .success
      (match r.parsed with
       | some v => if truthy v then v else .obj [(S "text", .str text)]
       | none => .obj [(S "text", .str text)])

/-- Model of `result && typeof result.text === "string" ? result.text : ""`
(src/index.js line 216). -/
def resultText (result : JVal) : List Char :=
  if truthy result = false then []
  else
    match result with
    | .obj fs =>
      (match objLookup fs (S "text") with
       | .str s => s
       | _ => [])
    | _ => []

/-- Early termination of the main body: either an explicit `fail(...)`
envelope, or a thrown exception carrying its message, handled by the
top-level catch-all. -/
inductive Stop where
  | failEnv (e : Envelope)
  | thrown (m : List Char)

/-- Convenience constructor for a `fail(kind, message)` stop. -/
def pfail (kind msg : String) : Stop := .failEnv (.failure (S kind) (S msg))

/-- The request the main body hands to `generateText` (src/index.js lines
185-210), together with everything the provider construction consumed.
The model handle itself (`provider(modelName)`) is opaque SDK state; its
inputs are recorded here. -/
structure GenRequest where
  provider : List Char
  modelName : List Char
  apiKey : List Char
  baseURL : List Char
  prompt : List Char
  system : Option (List Char)
  temperature : Option DecNum
  maxTokens : Option DecNum
  topP : Option DecNum
  stopSequences : Option (List (List Char))
  timeoutMs : DecNum

/-- The call `prompt.trim()` on line 145: succeeds on strings, throws a
TypeError (message text as in Node) on every other value. -/
def promptTrim (v : JVal) : Except (List Char) (List Char) :=
  match v with
  | .str s => .ok (trimChars s)
  | _ => .error (S "prompt.trim is not a function")

/-- The variable named in the missing-key message
(`PROVIDER_ENV[providerName] || "AI_API_KEY"`, src/index.js line 175). -/
def envNameFor (provider : List Char) : List Char :=
  (providerEnvVar provider).getD (S "AI_API_KEY")

/-- The three resolver checks of src/index.js lines 168-183, in source
order: the local-provider base-URL requirement, then the missing-key
check, then the unknown-provider check; on success, the resolved key. -/
def resolveChecks (providerName baseURL : List Char) (env : Env) :
    Except Envelope (List Char) :=
  let apiKey := resolveApiKey env providerName
  if providerName = S "local" ∧ baseURL = [] then
    .error (.failure (S "params")
      (S "Parameter \x27base_url\x27 is required for provider \x27local\x27."))
  else if apiKey = [] ∧ baseURL = [] ∧ providerName ∉ optionalKeyProviders then
    .error (.failure (S "env")
      (S "Missing API key. Set " ++ envNameFor providerName ++ S " or AI_API_KEY."))
  else if providerName ∉ providerNames then
    .error (.failure (S "params")
      (S "Unsupported provider \x27" ++ providerName ++
        S "\x27. Supported providers: " ++ supportedSorted ++ S "."))
  else .ok apiKey

/-- Boolean string-prefix test (`String.prototype.startsWith`). -/
def strStartsWith (pre s : List Char) : Bool := pre.isPrefixOf s

/-- The underlying characters of a string value (the non-string case is
unreachable at its use site, where `prompt.trim()` has already succeeded). -/
def strOrEmpty : JVal → List Char
  | .str s => s
  | _ => []

/-- Provider and model name selection (src/index.js lines 151-166): a
non-empty base URL forces the local provider and strips one
case-insensitive `local/` prefix from the trimmed model string; otherwise
the `provider/model` split must succeed. -/
def modelIds (baseURL modelRaw : List Char) : Except Stop (List Char × List Char) :=
  if baseURL ≠ [] then
    pure (S "local",
      if strStartsWith (S "local/") (lowerStr modelRaw) then modelRaw.drop 6 else modelRaw)
  else
    match normalizeModel (.str modelRaw) with
    | none =>
      throw (pfail "params" "Parameter \x27model\x27 must be in the form \x27provider/model\x27.")
    | some pm => pure pm

/-- The main body from the `job.params` access up to the `generateText`
call (src/index.js lines 143-196): parameter normalization, provider and
credential resolution, and assembly of the request. Mirrors the source
top to bottom; `throw` models both explicit `return fail(...)` paths
(`Stop.failEnv`) and thrown TypeErrors (`Stop.thrown`). -/
def prepare (job : JVal) (env : Env) : Except Stop (GenRequest × Bool) := do
  let paramsRaw ← (jsGet job (S "params")).mapError Stop.thrown
  let params := jsOr paramsRaw (.obj [])
  let promptRaw ← (jsGet params (S "prompt")).mapError Stop.thrown
  let promptVal := jsOr promptRaw (.str [])
  let ptrim ← (promptTrim promptVal).mapError Stop.thrown
  if ptrim = [] then
    throw (pfail "params" "Required parameter \x27prompt\x27 was not provided.")
  else do
    let promptStr := strOrEmpty promptVal
    let baseRaw ← (jsGet params (S "base_url")).mapError Stop.thrown
    let baseURL := if truthy baseRaw then trimChars (jsToString baseRaw) else []
    let modelV ← (jsGet params (S "model")).mapError Stop.thrown
    let modelRaw := trimChars (jsToString (jsOr modelV (.str [])))
    if modelRaw = [] then
      throw (pfail "params" "Required parameter \x27model\x27 was not provided.")
    else do
      let pm ← modelIds baseURL modelRaw
      let apiKey ← (resolveChecks pm.1 baseURL env).mapError Stop.failEnv
      let tempV ← (jsGet params (S "temperature")).mapError Stop.thrown
      let temperature := parseNumber tempV none
      let maxV ← (jsGet params (S "max_tokens")).mapError Stop.thrown
      let maxTokens := parseNumber maxV none
      let topV ← (jsGet params (S "top_p")).mapError Stop.thrown
      let topP := parseNumber topV none
      let stopV ← (jsGet params (S "stop_sequences")).mapError Stop.thrown
      let stopSequences := parseStopSequences stopV
      let sysV ← (jsGet params (S "system_prompt")).mapError Stop.thrown
      let system := if truthy sysV then some (jsToString sysV) else none
      let ejV ← (jsGet params (S "expect_json")).mapError Stop.thrown
      let ej := expectJson ejV
      let toV ← (jsGet params (S "timeout_ms")).mapError Stop.thrown
      let timeoutMs := (parseNumber toV (some 60000)).getD 60000
      pure ({ provider := pm.1, modelName := pm.2, apiKey, baseURL, prompt := promptStr,
              system, temperature, maxTokens, topP, stopSequences, timeoutMs }, ej)

/-- Fallback error description. -/
def unknownErrorMsg : List Char := S "Unknown error"

/-- Model of `err && err.message ? err.message : "Unknown error"`
(src/index.js line 231); none models a falsy error or message. -/
def errDesc : Option (List Char) → List Char
  | some m => if m = [] then unknownErrorMsg else m
  | none => unknownErrorMsg

/-- The main async body after `readJob`, composed with the top-level
catch-all (src/index.js lines 141-232). The single outbound request is
the input function `gen`, covering the SDK call, the timeout-driven abort
(a rejection whose message comes from the abort error) and any other rejection. -/
def mainModel (job : JVal) (env : Env)
    (gen : GenRequest → Except (Option (List Char)) JVal) : Envelope :=
  match prepare job env with
  | .error (.failEnv e) => e
  | .error (.thrown m) => .failure (S "error") (errDesc (some m))
  | .ok (req, ej) =>
    match gen req with
    | .error m => .failure (S "error") (errDesc m)
    | .ok result => respond ej (resultText result)

/-- Model of `readJob` (src/index.js lines 56-67). The parse-failure
description embeds the SyntaxError message of the engine after the fixed
prefix; the message text here is a stand-in (no claim depends on it). -/
def readJobModel (stdin : List Char) : Except Envelope JVal :=
  let raw := trimChars stdin
  if raw = [] then .error (.failure (S "input") (S "No JSON input received on STDIN."))
  else
    match parseJson raw with
    | some v => .ok v
    | none =>
      .error (.failure (S "input") (S "Failed to parse JSON input: Unexpected token in JSON"))

/-- One whole invocation: the ordered list of envelopes written to
standard output and the process exit code. `writeExit` requests the exit
from the asynchronous completion callback of `process.stdout.write`, so
when `readJob` reports a failure the awaiting main body still resumes
(with `job = undefined`, since `fail` returns the undefined
result of `writeExit`), throws on the `job.params` access, and the catch-all writes a
second envelope before the deferred `process.exit(0)` runs. On the
successful read path exactly one envelope is written. Every exit path
carries code 0. -/
def runProgram (stdin : List Char) (env : Env)
    (gen : GenRequest → Except (Option (List Char)) JVal) : List Envelope × Nat :=
  match readJobModel stdin with
  | .error e => ([e, mainModel .undefined env gen], 0)
  | .ok job => ([mainModel job env gen], 0)

/-- The params-stage failure kind of a prepared run, if it stopped with an
explicit failure envelope. -/
def prepFailKind : Except Stop (GenRequest × Bool) → Option (List Char)
  | .error (.failEnv (.failure c _)) => some c
  | _ => none

/-- The failure kind of a resolver-check outcome, if it failed. -/
def checksFailKind : Except Envelope (List Char) → Option (List Char)
  | .error e => failKind e
  | .ok _ => none

theorem dropWhile_append_of_forall {p : Char → Bool} {pad l : List Char}
    (h : ∀ c ∈ pad, p c = true) :
    List.dropWhile p (pad ++ l) = List.dropWhile p l := by
  induction pad with
  | nil => rfl
  | cons x xs ih =>
    simp only [List.cons_append, List.dropWhile_cons]
    rw [h x (by simp)]
    exact ih fun c hc => h c (by simp [hc])

theorem dropWhile_eq_nil_of_forall {p : Char → Bool} {l : List Char}
    (h : ∀ c ∈ l, p c = true) : List.dropWhile p l = [] := by
  have := dropWhile_append_of_forall (l := ([] : List Char)) h
  simpa using this

theorem dropWhile_append_of_ne_nil {p : Char → Bool} {s r : List Char}
    (h : List.dropWhile p s ≠ []) :
    List.dropWhile p (s ++ r) = List.dropWhile p s ++ r := by
  induction s with
  | nil => simp at h
  | cons x xs ih =>
    simp only [List.cons_append, List.dropWhile_cons] at h ⊢
    by_cases hx : p x
    · simp only [hx, if_true] at h ⊢
      exact ih h
    · simp [hx]

theorem trimStart_pad {pad s : List Char} (h : ∀ c ∈ pad, jsWsB c = true) :
    trimStart (pad ++ s) = trimStart s :=
  dropWhile_append_of_forall h

theorem trimEnd_pad {s pad : List Char} (h : ∀ c ∈ pad, jsWsB c = true) :
    trimEnd (s ++ pad) = trimEnd s := by
  unfold trimEnd
  rw [List.reverse_append, dropWhile_append_of_forall]
  intro c hc
  exact h c (List.mem_reverse.mp hc)

theorem trimChars_pad {pad t pad' : List Char}
    (h : ∀ c ∈ pad, jsWsB c = true) (h' : ∀ c ∈ pad', jsWsB c = true) :
    trimChars (pad ++ t ++ pad') = trimChars t := by
  unfold trimChars
  rw [List.append_assoc, trimStart_pad h]
  by_cases ht : trimStart t = []
  · have hall : ∀ c ∈ t, jsWsB c = true := List.dropWhile_eq_nil_iff.mp ht
    have h1 : trimStart (t ++ pad') = [] := by
      unfold trimStart
      rw [dropWhile_append_of_forall hall]
      exact dropWhile_eq_nil_of_forall h'
    rw [h1, ht]
  · rw [show trimStart (t ++ pad') = trimStart t ++ pad' from
      dropWhile_append_of_ne_nil ht]
    exact trimEnd_pad h'

theorem extractJson_of_fence {t inner : List Char}
    (h : fenceInner (trimChars t) = some inner) :
    extractJson t = jsonBody (trimChars inner) := by
  have ht : t ≠ [] := by
    intro he
    subst he
    simp [trimChars, trimStart, trimEnd, fenceInner, fenceMark, findSub, S] at h
  unfold extractJson
  rw [if_neg ht]
  simp only [candidateOf, h]

theorem extractJson_not_brace {t : List Char}
    (h : braceOk (candidateOf t) = false) :
    extractJson t = ⟨none, none⟩ := by
  by_cases ht : t = []
  · subst ht; rfl
  · unfold extractJson
    rw [if_neg ht]
    unfold jsonBody
    by_cases hc : candidateOf t = []
    · rw [if_pos hc]
    · rw [if_neg hc, h]
      simp

/-- Claim C3: JSON extraction trims the response text (surrounding
whitespace never changes the result); when the trimmed text contains a
triple-backtick fenced block, the result is computed from the trimmed
content of the first such block alone; a candidate whose outer characters
are not a matching brace or bracket pair yields no parse and no JSON; and
the fenced response with tag `json` around the object body parses to the
object, not to the raw fenced text (a second fenced block is ignored). -/
theorem C3_extraction :
    (∀ (pad t pad' : List Char), (∀ c ∈ pad, jsWsB c = true) →
      (∀ c ∈ pad', jsWsB c = true) →
      extractJson (pad ++ t ++ pad') = extractJson t) ∧
    (∀ t inner, fenceInner (trimChars t) = some inner →
      extractJson t = jsonBody (trimChars inner)) ∧
    (∀ t, braceOk (candidateOf t) = false → extractJson t = ⟨none, none⟩) ∧
    extractJson (S "```json\n\x7b\"a\":1\x7d\n```") =
      ⟨some (.obj [(S "a", .num 1)]), some (S "\x7b\"a\":1\x7d")⟩ ∧
    extractJson (S "```\x7b\"a\":1\x7d``` ```\x7b\"b\":2\x7d```") =
      ⟨some (.obj [(S "a", .num 1)]), some (S "\x7b\"a\":1\x7d")⟩ := by
  refine ⟨?_, fun t inner h => extractJson_of_fence h,
    fun t h => extractJson_not_brace h, rfl, rfl⟩
  intro pad t pad' h h'
  by_cases ht : t = []
  · subst ht
    by_cases hp : pad ++ [] ++ pad' = []
    · rw [hp]
    · unfold extractJson
      rw [if_neg hp, if_pos rfl]
      have htr : trimChars (pad ++ [] ++ pad') = trimChars ([] : List Char) :=
        trimChars_pad h h'
      simp only [candidateOf, htr]
      rfl
  · have hpt : pad ++ t ++ pad' ≠ [] := by
      intro he
      rcases List.append_eq_nil.mp he with ⟨h1, _⟩
      rcases List.append_eq_nil.mp h1 with ⟨_, ht2⟩
      exact ht ht2
    unfold extractJson
    rw [if_neg hpt, if_neg ht]
    simp only [candidateOf, trimChars_pad h h']

theorem C3_extraction_witness :
    extractJson (S " " ++ S "\x7b\"a\":1\x7d" ++ S " ") = extractJson (S "\x7b\"a\":1\x7d") ∧
    extractJson (S "hello") = ⟨none, none⟩ :=
  ⟨C3_extraction.1 (S " ") (S "\x7b\"a\":1\x7d") (S " ") (by decide) (by decide),
   C3_extraction.2.2.1 (S "hello") (by decide)⟩

/-- Claim C1 (code bug): the process always exits with code 0, but it does
not always write exactly one envelope line. On empty standard input,
`fail` inside `readJob` only schedules the exit from the asynchronous
write callback; the awaiting main body resumes with an undefined job,
throws on the `job.params` access, and the catch-all writes a second
error envelope. The run below evaluates the model at that failing input:
two envelopes, exit code 0. -/
theorem C1_envelope_writes :
    (∀ stdin env gen, (runProgram stdin env gen).2 = 0) ∧
    runProgram [] [] (fun _ => .error none) =
      ([.failure (S "input") (S "No JSON input received on STDIN."),
        .failure (S "error")
          (S "Cannot read properties of undefined (reading \x27params\x27)")], 0) := by
  refine ⟨?_, rfl⟩
  intro stdin env gen
  unfold runProgram
  rcases readJobModel stdin with e | job <;> rfl

theorem parseVal_obj_eq (f : Nat) (cs : List Char) :
    parseVal (f + 1) ('\x7b' :: cs) =
      (match skipWs cs with
       | '\x7d' :: r2 => some (.obj [], r2)
       | t2 => (parseObjItems f t2).map (fun p => (.obj (dedupFields p.1), p.2))) := rfl

theorem parseVal_arr_eq (f : Nat) (cs : List Char) :
    parseVal (f + 1) ('[' :: cs) =
      (match skipWs cs with
       | ']' :: r2 => some (.arr [], r2)
       | t2 => (parseArrItems f t2).map (fun p => (.arr p.1, p.2))) := rfl

theorem parseJson_obj_shape {cs : List Char} {v : JVal}
    (h : parseJson ('\x7b' :: cs) = some v) : ∃ fs, v = .obj fs := by
  unfold parseJson at h
  rw [show ('\x7b' :: cs).length + 1 = cs.length + 1 + 1 from rfl, parseVal_obj_eq] at h
  split at h
  · rename_i v' rest heq
    split at h
    · obtain rfl : v' = v := by injection h
      split at heq
      · injection heq with heq2
        injection heq2 with hv2 hr2
        exact ⟨[], hv2.symm⟩
      · rcases Option.map_eq_some'.mp heq with ⟨p, _, hp2⟩
        injection hp2 with hp21 hp22
        exact ⟨dedupFields p.1, hp21.symm⟩
    · exact absurd h (by simp)
  · exact absurd h (by simp)

theorem parseJson_arr_shape {cs : List Char} {v : JVal}
    (h : parseJson ('[' :: cs) = some v) : ∃ xs, v = .arr xs := by
  unfold parseJson at h
  rw [show ('[' :: cs).length + 1 = cs.length + 1 + 1 from rfl, parseVal_arr_eq] at h
  split at h
  · rename_i v' rest heq
    split at h
    · obtain rfl : v' = v := by injection h
      split at heq
      · injection heq with heq2
        injection heq2 with hv2 hr2
        exact ⟨[], hv2.symm⟩
      · rcases Option.map_eq_some'.mp heq with ⟨p, _, hp2⟩
        injection hp2 with hp21 hp22
        exact ⟨p.1, hp21.symm⟩
    · exact absurd h (by simp)
  · exact absurd h (by simp)

theorem parseJson_shape_truthy {c : List Char} {v : JVal}
    (hb : braceOk c = true) (h : parseJson c = some v) : truthy v = true := by
  rcases c with _ | ⟨c0, cs⟩
  · simp [braceOk] at hb
  · have h0 : c0 = '\x7b' ∨ c0 = '[' := by
      simp only [braceOk, List.head?, Bool.or_eq_true, Bool.and_eq_true, beq_iff_eq,
        Option.some.injEq] at hb
      rcases hb with ⟨h1, _⟩ | ⟨h1, _⟩
      · exact Or.inl h1
      · exact Or.inr h1
    rcases h0 with rfl | rfl
    · obtain ⟨fs, rfl⟩ := parseJson_obj_shape h
      rfl
    · obtain ⟨xs, rfl⟩ := parseJson_arr_shape h
      rfl

theorem extractJson_parsed_truthy {t : List Char} {v : JVal}
    (h : (extractJson t).parsed = some v) : truthy v = true := by
  unfold extractJson at h
  by_cases ht : t = []
  · rw [if_pos ht] at h
    simp at h
  · rw [if_neg ht] at h
    unfold jsonBody at h
    by_cases hc : candidateOf t = []
    · rw [if_pos hc] at h
      simp at h
    · rw [if_neg hc] at h
      by_cases hb : braceOk (candidateOf t)
      · rw [if_pos hb] at h
        rcases hp : parseJson (candidateOf t) with _ | v'
        · rw [hp] at h
          simp at h
        · rw [hp] at h
          simp only at h
          obtain rfl : v' = v := by injection h
          exact parseJson_shape_truthy hb hp
      · rw [if_neg hb] at h
        simp at h

theorem extractJson_jsonText_ne_nil {t s : List Char}
    (h : (extractJson t).jsonText = some s) : s ≠ [] := by
  unfold extractJson at h
  by_cases ht : t = []
  · rw [if_pos ht] at h
    simp at h
  · rw [if_neg ht] at h
    unfold jsonBody at h
    by_cases hc : candidateOf t = []
    · rw [if_pos hc] at h
      simp at h
    · rw [if_neg hc] at h
      by_cases hb : braceOk (candidateOf t)
      · rw [if_pos hb] at h
        rcases hp : parseJson (candidateOf t) with _ | v'
        · rw [hp] at h
          simp only at h
          obtain rfl : candidateOf t = s := by injection h
          exact hc
        · rw [hp] at h
          simp only at h
          obtain rfl : candidateOf t = s := by injection h
          exact hc
      · rw [if_neg hb] at h
        simp at h

/-- Claim C2: for every model response text and every value of the
JSON-expectation flag, the interpretation stage fails with kind `json`
when the flag is set and nothing parsed — message distinguishing a
candidate that did not parse (`Invalid JSON returned by model.`) from no
candidate at all (`No JSON returned by model.`) — returns the parsed
value as the payload when one exists, and otherwise wraps the original
text. -/
theorem C2_interpretation :
    ∀ (ej : Bool) (t : List Char),
      (ej = true → (extractJson t).parsed = none → (extractJson t).jsonText = none →
        respond ej t = .failure (S "json") noJsonMsg) ∧
      (∀ s, ej = true → (extractJson t).parsed = none → (extractJson t).jsonText = some s →
        respond ej t = .failure (S "json") invalidJsonMsg) ∧
      (∀ v, (extractJson t).parsed = some v → respond ej t = .success v) ∧
      ((extractJson t).parsed = none → ej = false →
        respond ej t = .success (.obj [(S "text", .str t)])) := by
  intro ej t
  refine ⟨?_, ?_, ?_, ?_⟩
  · intro hej hp hx
    simp only [respond, hp, hx, hej, optValTruthy, optStrTruthy, Bool.not_false,
      Bool.and_true, if_true]
    rfl
  · intro s hej hp hx
    have hs : s ≠ [] := extractJson_jsonText_ne_nil hx
    simp only [respond, hp, hx, hej, optValTruthy, optStrTruthy, Bool.not_false,
      Bool.and_true, if_true, List.isEmpty_eq_true.symm]
    rw [if_pos]
    simp [List.isEmpty_iff, hs]
  · intro v hp
    have hv : truthy v = true := extractJson_parsed_truthy hp
    simp only [respond, hp, optValTruthy, hv, Bool.not_true, Bool.and_false,
      Bool.false_eq_true, if_false, if_pos hv]
    rfl
  · intro hp hej
    simp only [respond, hp, hej, optValTruthy, Bool.false_and, Bool.false_eq_true, if_false]

theorem C2_interpretation_witness :
    respond true (S "hello") = .failure (S "json") noJsonMsg ∧
    respond true (S "\x7b\"a\":\x7d") = .failure (S "json") invalidJsonMsg ∧
    respond false (S "hi") = .success (.obj [(S "text", .str (S "hi"))]) :=
  ⟨(C2_interpretation true (S "hello")).1 rfl rfl rfl,
   (C2_interpretation true (S "\x7b\"a\":\x7d")).2.1 (S "\x7b\"a\":\x7d") rfl rfl rfl,
   (C2_interpretation false (S "hi")).2.2.2 rfl rfl⟩

theorem exc_ok_bind {ε α β : Type} (a : α) (f : α → Except ε β) :
    (Except.ok a : Except ε α) >>= f = f a := rfl

theorem prepare_eval_prompt (pv : JVal) (env : Env) :
    prepare (.obj [(S "params", .obj [(S "prompt", pv)])]) env =
      ((promptTrim (jsOr pv (.str []))).mapError Stop.thrown >>= fun ptrim =>
        if ptrim = [] then
          throw (pfail "params" "Required parameter \x27prompt\x27 was not provided.")
        else
          throw (pfail "params" "Required parameter \x27model\x27 was not provided.")) := rfl

theorem prepare_eval_model (mv : JVal) (env : Env) :
    prepare (.obj [(S "params", .obj [(S "prompt", .str (S "p")), (S "model", mv)])]) env =
      (if trimChars (jsToString (jsOr mv (.str []))) = [] then
        throw (pfail "params" "Required parameter \x27model\x27 was not provided.")
       else
        modelIds [] (trimChars (jsToString (jsOr mv (.str [])))) >>= fun pm =>
        (resolveChecks pm.1 [] env).mapError Stop.failEnv >>= fun apiKey =>
        pure ({ provider := pm.1, modelName := pm.2, apiKey, baseURL := [],
                prompt := S "p", system := none, temperature := none, maxTokens := none,
                topP := none, stopSequences := none, timeoutMs := 60000 }, false)) := rfl

theorem prepare_eval_local (pv bv mv : JVal) (env : Env) :
    prepare (.obj [(S "params",
      .obj [(S "prompt", pv), (S "base_url", bv), (S "model", mv)])]) env =
      ((promptTrim (jsOr pv (.str []))).mapError Stop.thrown >>= fun ptrim =>
        if ptrim = [] then
          throw (pfail "params" "Required parameter \x27prompt\x27 was not provided.")
        else
          if trimChars (jsToString (jsOr mv (.str []))) = [] then
            throw (pfail "params" "Required parameter \x27model\x27 was not provided.")
          else
            modelIds (if truthy bv then trimChars (jsToString bv) else [])
                (trimChars (jsToString (jsOr mv (.str [])))) >>= fun pm =>
            (resolveChecks pm.1
                (if truthy bv then trimChars (jsToString bv) else []) env).mapError
              Stop.failEnv >>= fun apiKey =>
            pure ({ provider := pm.1, modelName := pm.2, apiKey,
                    baseURL := if truthy bv then trimChars (jsToString bv) else [],
                    prompt := strOrEmpty (jsOr pv (.str [])), system := none,
                    temperature := none, maxTokens := none, topP := none,
                    stopSequences := none, timeoutMs := 60000 }, false)) := rfl

theorem jsOr_str_toString (s : List Char) :
    jsToString (jsOr (.str s) (.str [])) = s := by
  by_cases hs : s = [] <;> simp [jsOr, truthy, hs, jsToString]

theorem mem_trimChars {c : Char} {s : List Char} (h : c ∈ trimChars s) : c ∈ s := by
  unfold trimChars trimEnd trimStart at h
  have h1 := (List.dropWhile_sublist (p := jsWsB)
    (l := (List.dropWhile jsWsB s).reverse)).subset (List.mem_reverse.mp h)
  exact (List.dropWhile_sublist (p := jsWsB) (l := s)).subset (List.mem_reverse.mp h1)

theorem splitOnChar_ne_nil (c : Char) (s : List Char) : splitOnChar c s ≠ [] := by
  induction s with
  | nil => simp [splitOnChar]
  | cons x xs ih =>
    unfold splitOnChar
    by_cases hx : x = c
    · simp [hx]
    · rw [if_neg hx]
      rcases h : splitOnChar c xs with _ | ⟨r, rs⟩
      · exact absurd h ih
      · simp

theorem splitOnChar_of_not_mem {c : Char} {s : List Char} (h : c ∉ s) :
    splitOnChar c s = [s] := by
  induction s with
  | nil => rfl
  | cons x xs ih =>
    unfold splitOnChar
    rw [if_neg (by rintro rfl; exact h (by simp))]
    rw [ih fun hm => h (by simp [hm])]

theorem splitOnChar_of_mem {c : Char} {s : List Char} (h : c ∈ s) :
    splitOnChar c s =
      s.takeWhile (fun x => x != c) ::
        splitOnChar c ((s.dropWhile (fun x => x != c)).tail) := by
  induction s with
  | nil => simp at h
  | cons x xs ih =>
    by_cases hx : x = c
    · subst hx
      rw [show splitOnChar x (x :: xs) = [] :: splitOnChar x xs by
        simp [splitOnChar]]
      simp [List.takeWhile_cons, List.dropWhile_cons]
    · have hc : c ∈ xs := by
        rcases List.mem_cons.mp h with h1 | h1
        · exact absurd h1.symm hx
        · exact h1
      have hbx : (x != c) = true := by simp [hx]
      rw [show splitOnChar c (x :: xs) =
          (match splitOnChar c xs with
           | r :: rs => (x :: r) :: rs
           | [] => [[x]]) by
        simp only [splitOnChar]
        rw [if_neg hx]]
      rw [ih hc]
      simp [List.takeWhile_cons, List.dropWhile_cons, hbx]

theorem joinOn_splitOnChar (c : Char) (s : List Char) :
    joinOn c (splitOnChar c s) = s := by
  induction s with
  | nil => rfl
  | cons x xs ih =>
    unfold splitOnChar
    by_cases hx : x = c
    · subst hx
      rw [if_pos rfl]
      rcases hsp : splitOnChar x xs with _ | ⟨r, rs⟩
      · exact absurd hsp (splitOnChar_ne_nil x xs)
      · rw [hsp] at ih
        show joinOn x ([] :: r :: rs) = x :: xs
        rw [show joinOn x ([] :: r :: rs) = [] ++ x :: joinOn x (r :: rs) from rfl]
        rw [ih]
        rfl
    · rw [if_neg hx]
      rcases hsp : splitOnChar c xs with _ | ⟨r, rs⟩
      · exact absurd hsp (splitOnChar_ne_nil c xs)
      · rw [hsp] at ih
        rcases rs with _ | ⟨q, qs⟩
        · show x :: r = x :: xs
          rw [show joinOn c [r] = r from rfl] at ih
          rw [ih]
        · show (x :: r) ++ c :: joinOn c (q :: qs) = x :: xs
          rw [show joinOn c (r :: q :: qs) = r ++ c :: joinOn c (q :: qs) from rfl] at ih
          rw [List.cons_append, ih]

theorem normalizeModel_no_slash {t : List Char} (h : '/' ∉ t) :
    normalizeModel (.str t) = none := by
  simp only [normalizeModel, jsOr_str_toString]
  by_cases hr : trimChars t = []
  · rw [if_pos hr]
  · rw [if_neg hr]
    have hns : '/' ∉ trimChars t := fun hm => h (mem_trimChars hm)
    rw [splitOnChar_of_not_mem hns]
    rw [if_pos (by simp)]

theorem resolveChecks_local {b : List Char} (env : Env) (hb : b ≠ []) :
    resolveChecks (S "local") b env = .ok (resolveApiKey env (S "local")) := by
  simp only [resolveChecks]
  rw [if_neg fun hc => hb hc.2, if_neg (fun hc => hb hc.2.1),
    if_neg (by simp [providerNames])]

theorem promptTrim_nonstr {v : JVal} (hstr : v.isStr = false) :
    promptTrim v = .error (S "prompt.trim is not a function") := by
  cases v <;> simp_all [promptTrim, JVal.isStr]

/-- Claim C4, counterexample: the claim asserts that a fully-empty input —
including an empty or all-empty list — yields "no stop sequences", but the
array branch of `parseStopSequences` returns its filtered list directly,
so an empty (or all-empty) array yields an explicit empty list, not the
absent marker. -/
theorem C4_stop_counterexample :
    parseStopSequences (.arr []) = some [] ∧
    (parseStopSequences (.arr [])).isSome = true ∧
    parseStopSequences (.arr [.str []]) = some [] :=
  ⟨rfl, rfl, rfl⟩

/-- Claim C4, as amended: list input is coerced element-wise to strings
with empty entries dropped (and the possibly empty result is passed on as
an explicit list); single-string input is split on newline or comma,
trimmed and filtered, with `"a, b\nc"` yielding `["a","b","c"]`; absent
input, or a string whose parts are all empty, yields no stop sequences at
all — but an empty or all-empty list does not. -/
theorem C4_stop_sequences :
    (∀ xs : List JVal, parseStopSequences (.arr xs) =
      some ((xs.map jsToString).filter (fun s => !s.isEmpty))) ∧
    parseStopSequences (.str (S "a, b\nc")) = some [S "a", S "b", S "c"] ∧
    parseStopSequences .undefined = none ∧
    parseStopSequences .null = none ∧
    parseStopSequences (.str []) = none ∧
    (∀ s : List Char,
      ((splitStops s).map trimChars).filter (fun p => !p.isEmpty) = [] →
      parseStopSequences (.str s) = none) ∧
    (∀ s : List Char,
      ((splitStops s).map trimChars).filter (fun p => !p.isEmpty) ≠ [] →
      parseStopSequences (.str s) =
        some (((splitStops s).map trimChars).filter (fun p => !p.isEmpty))) := by
  refine ⟨fun xs => rfl, rfl, rfl, rfl, rfl, ?_, ?_⟩
  · intro s h
    by_cases hs : s = []
    · subst hs
      rfl
    · have ht : truthy (.str s) = true := by simp [truthy, hs]
      simp only [parseStopSequences, ht, jsToString]
      rw [h]
      rfl
  · intro s h
    have hs : s ≠ [] := by
      intro he
      subst he
      exact h rfl
    have ht : truthy (.str s) = true := by simp [truthy, hs]
    simp only [parseStopSequences, ht, jsToString]
    rw [if_neg h]
    rfl

theorem C4_stop_sequences_witness :
    parseStopSequences (.str (S " , ,")) = none :=
  C4_stop_sequences.2.2.2.2.2.1 (S " , ,") (by decide)

/-- Claim C9, counterexample: the claim says no value other than the
boolean true or a string case-insensitively equal to "true" satisfies the
flag, but the one-element array containing "true" — neither a boolean nor
a string — also satisfies it, because `String(["true"])` is `"true"`. -/
theorem C9_expect_counterexample :
    expectJson (.arr [.str (S "true")]) = true ∧
    JVal.isStr (.arr [.str (S "true")]) = false ∧
    (match JVal.arr [.str (S "true")] with
     | .bool _ => true
     | _ => false) = false :=
  ⟨rfl, rfl, rfl⟩

/-- Claim C9, as amended: the flag is true exactly when the raw value is
the boolean true, or a truthy value whose JavaScript string coercion
lower-cases to "true" — strings such as "true" or "TRUE", but also, for
example, the single-element array containing "TRUE"; the number 1 still
does not satisfy it. -/
theorem C9_expect_json :
    (∀ s : List Char, expectJson (.str s) = decide (lowerStr s = S "true")) ∧
    expectJson (.bool true) = true ∧
    expectJson (.bool false) = false ∧
    expectJson (.num 1) = false ∧
    expectJson (.arr [.str (S "TRUE")]) = true ∧
    (∀ v : JVal, truthy v = true →
      expectJson v = (decide (lowerStr (jsToString v) = S "true") ||
        (match v with
         | .bool true => true
         | _ => false))) := by
  refine ⟨?_, rfl, rfl, rfl, rfl, ?_⟩
  · intro s
    by_cases hs : s = []
    · subst hs
      rfl
    · have h1 : jsOr (.str s) (.str []) = .str s := by simp [jsOr, truthy, hs]
      simp [expectJson, h1, jsToString]
  · intro v hv
    have h1 : jsOr v (.str []) = v := by simp [jsOr, hv]
    simp only [expectJson, h1]

theorem C9_expect_json_witness :
    expectJson (.obj []) =
      (decide (lowerStr (jsToString (.obj [])) = S "true") ||
        (match JVal.obj [] with
         | .bool true => true
         | _ => false)) :=
  C9_expect_json.2.2.2.2.2 (.obj []) rfl

/-- Claim C6: API key resolution prefers the provider-specific environment
variable when it resolves to a non-empty value, falls back to the generic
AI_API_KEY, and otherwise yields the empty string; in particular, when
both are set the provider-specific key wins. -/
theorem C6_key_resolution :
    ∀ (env : Env) (p n : List Char), providerEnvVar p = some n →
      (envStr env n ≠ [] → resolveApiKey env p = envStr env n) ∧
      (envStr env n = [] → resolveApiKey env p = envStr env (S "AI_API_KEY")) ∧
      (envStr env n = [] → envStr env (S "AI_API_KEY") = [] → resolveApiKey env p = []) := by
  intro env p n h
  refine ⟨fun h1 => ?_, fun h1 => ?_, fun h1 h2 => ?_⟩
  · simp only [resolveApiKey, h, Option.getD_some]
    rw [if_pos h1]
  · simp only [resolveApiKey, h, Option.getD_some]
    rw [if_neg (by simp [h1])]
  · simp only [resolveApiKey, h, Option.getD_some]
    rw [if_neg (by simp [h1]), h2]

theorem C6_key_resolution_witness :
    resolveApiKey [(S "OPENAI_API_KEY", S "pk"), (S "AI_API_KEY", S "g")] (S "openai") =
      S "pk" :=
  ((C6_key_resolution [(S "OPENAI_API_KEY", S "pk"), (S "AI_API_KEY", S "g")]
    (S "openai") (S "OPENAI_API_KEY") (by decide)).1 (by decide)).trans rfl

/-- Claim C5: the resolver checks run in source order — first the
local-provider base-URL requirement (`params` kind), then the missing-key
check (`env` kind, naming the expected variable), then the
unknown-provider check (`params` kind, listing all supported providers
sorted) — so an unrecognized provider with no key and no base URL yields
the `env`-kind failure, not the unsupported-provider one; the sorted
provider list is spelled out in the last conjunct. -/
theorem C5_resolver_order :
    ∀ (p b : List Char) (env : Env),
      (p = S "local" → b = [] → resolveChecks p b env =
        .error (.failure (S "params")
          (S "Parameter \x27base_url\x27 is required for provider \x27local\x27."))) ∧
      (p ≠ S "local" → b = [] → resolveApiKey env p = [] → resolveChecks p b env =
        .error (.failure (S "env")
          (S "Missing API key. Set " ++ envNameFor p ++ S " or AI_API_KEY."))) ∧
      (¬ (p = S "local" ∧ b = []) → ¬ (resolveApiKey env p = [] ∧ b = []) →
        p ∉ providerNames → resolveChecks p b env =
        .error (.failure (S "params")
          (S "Unsupported provider \x27" ++ p ++ S "\x27. Supported providers: " ++
            supportedSorted ++ S "."))) ∧
      (p ∉ providerNames → resolveApiKey env p = [] → b = [] →
        checksFailKind (resolveChecks p b env) = some (S "env")) ∧
      supportedSorted =
        S "anthropic, cohere, deepseek, google, groq, local, mistral, openai, xai" := by
  intro p b env
  refine ⟨?_, ?_, ?_, ?_, rfl⟩
  · rintro rfl rfl
    simp only [resolveChecks]
    rw [if_pos (by simp)]
  · intro hp hb hk
    subst hb
    simp only [resolveChecks]
    rw [if_neg fun hc => hp hc.1, if_pos (by simp [hk, optionalKeyProviders])]
  · intro h1 h2 h3
    simp only [resolveChecks]
    rw [if_neg h1, if_neg (fun hc => h2 ⟨hc.1, hc.2.1⟩), if_pos h3]
  · intro h3 hk hb
    subst hb
    have hp : p ≠ S "local" := fun he => h3 (by rw [he]; decide)
    simp only [resolveChecks]
    rw [if_neg fun hc => hp hc.1, if_pos (by simp [hk, optionalKeyProviders])]
    rfl

theorem C5_resolver_order_witness :
    resolveChecks (S "local") [] [] =
      .error (.failure (S "params")
        (S "Parameter \x27base_url\x27 is required for provider \x27local\x27.")) ∧
    checksFailKind (resolveChecks (S "zzz") [] []) = some (S "env") :=
  ⟨(C5_resolver_order (S "local") [] []).1 rfl rfl,
   (C5_resolver_order (S "zzz") [] []).2.2.2.1 (by decide) (by decide) rfl⟩

/-- Claim C7: with no base URL, a model identifier containing a slash is
split on the first slash — the provider segment lower-cased, the model
name being the remainder re-joined with slashes (so model names may
contain slashes, as the concrete multi-slash conjunct shows) — while an
identifier without a slash makes the run fail with a `params`-kind
envelope. -/
theorem C7_model_split :
    (∀ s : List Char, '/' ∈ trimChars s →
      normalizeModel (.str s) =
        some (lowerStr ((trimChars s).takeWhile (fun x => x != '/')),
              ((trimChars s).dropWhile (fun x => x != '/')).tail)) ∧
    (∀ (s : List Char) (env : Env), '/' ∉ s →
      prepFailKind (prepare (.obj [(S "params",
        .obj [(S "prompt", .str (S "p")), (S "model", .str s)])]) env) =
        some (S "params")) ∧
    normalizeModel (.str (S "OpenAI/ft:gpt/x")) = some (S "openai", S "ft:gpt/x") := by
  refine ⟨?_, ?_, rfl⟩
  · intro s h
    have hs : s ≠ [] := by
      intro he
      subst he
      simp [trimChars, trimStart, trimEnd] at h
    simp only [normalizeModel, jsOr_str_toString]
    have hraw : trimChars s ≠ [] := List.ne_nil_of_mem h
    rw [if_neg hraw, splitOnChar_of_mem h]
    have hlen : ¬ (((trimChars s).takeWhile (fun x => x != '/') ::
        splitOnChar '/' (((trimChars s).dropWhile (fun x => x != '/')).tail)).length < 2) := by
      have := splitOnChar_ne_nil '/' (((trimChars s).dropWhile (fun x => x != '/')).tail)
      rcases hx : splitOnChar '/' (((trimChars s).dropWhile (fun x => x != '/')).tail) with
        _ | ⟨r, rs⟩
      · exact absurd hx this
      · simp
    rw [if_neg hlen]
    simp only [joinOn_splitOnChar]
  · intro s env h
    rw [prepare_eval_model]
    have hm : trimChars (jsToString (jsOr (.str s) (.str []))) = trimChars s := by
      rw [jsOr_str_toString]
    rw [hm]
    by_cases hr : trimChars s = []
    · rw [if_pos hr]
      rfl
    · rw [if_neg hr]
      have hns : normalizeModel (.str (trimChars s)) = none :=
        normalizeModel_no_slash fun hmem => h (mem_trimChars hmem)
      have hmi : modelIds [] (trimChars s) =
          Except.error (pfail "params"
            "Parameter \x27model\x27 must be in the form \x27provider/model\x27.") := by
        simp only [modelIds, hns]
        rfl
      rw [hmi]
      rfl

theorem C7_model_split_witness :
    normalizeModel (.str (S "openai/gpt-4o")) =
      some (lowerStr ((trimChars (S "openai/gpt-4o")).takeWhile (fun x => x != '/')),
            ((trimChars (S "openai/gpt-4o")).dropWhile (fun x => x != '/')).tail) ∧
    prepFailKind (prepare (.obj [(S "params",
      .obj [(S "prompt", .str (S "p")), (S "model", .str (S "gpt4"))])]) []) =
      some (S "params") :=
  ⟨C7_model_split.1 (S "openai/gpt-4o") (by decide),
   C7_model_split.2.1 (S "gpt4") [] (by decide)⟩

/-- Claim C8: a non-empty (after trimming) base URL forces the local
provider whatever the model string says, and exactly one six-character
`local/` prefix, matched case-insensitively, is stripped from the trimmed
model string, the remainder used verbatim; the concrete conjuncts show
`local/foo` and `LoCaL/foo` becoming `foo`, and `local/local/x` being
stripped only once. -/
theorem C8_local_override :
    (∀ (p b m : List Char) (env : Env),
      trimChars p ≠ [] → trimChars b ≠ [] → trimChars m ≠ [] →
      prepare (.obj [(S "params", .obj [(S "prompt", .str p), (S "base_url", .str b),
        (S "model", .str m)])]) env =
        .ok ({ provider := S "local",
               modelName := if strStartsWith (S "local/") (lowerStr (trimChars m))
                 then (trimChars m).drop 6 else trimChars m,
               apiKey := resolveApiKey env (S "local"), baseURL := trimChars b, prompt := p,
               system := none, temperature := none, maxTokens := none, topP := none,
               stopSequences := none, timeoutMs := 60000 }, false)) ∧
    prepare (.obj [(S "params", .obj [(S "prompt", .str (S "p")),
        (S "base_url", .str (S "http://x")), (S "model", .str (S "local/foo"))])]) [] =
      .ok ({ provider := S "local", modelName := S "foo", apiKey := [],
             baseURL := S "http://x", prompt := S "p", system := none, temperature := none,
             maxTokens := none, topP := none, stopSequences := none,
             timeoutMs := 60000 }, false) ∧
    prepare (.obj [(S "params", .obj [(S "prompt", .str (S "p")),
        (S "base_url", .str (S "http://x")), (S "model", .str (S "LoCaL/foo"))])]) [] =
      .ok ({ provider := S "local", modelName := S "foo", apiKey := [],
             baseURL := S "http://x", prompt := S "p", system := none, temperature := none,
             maxTokens := none, topP := none, stopSequences := none,
             timeoutMs := 60000 }, false) ∧
    prepare (.obj [(S "params", .obj [(S "prompt", .str (S "p")),
        (S "base_url", .str (S "http://x")), (S "model", .str (S "local/local/x"))])]) [] =
      .ok ({ provider := S "local", modelName := S "local/x", apiKey := [],
             baseURL := S "http://x", prompt := S "p", system := none, temperature := none,
             maxTokens := none, topP := none, stopSequences := none,
             timeoutMs := 60000 }, false) := by
  refine ⟨?_, rfl, rfl, rfl⟩
  intro p b m env hp hb hm
  have hpne : p ≠ [] := by
    intro he
    subst he
    exact hp rfl
  have hbne : b ≠ [] := by
    intro he
    subst he
    exact hb rfl
  have hmne : m ≠ [] := by
    intro he
    subst he
    exact hm rfl
  rw [prepare_eval_local]
  have h1 : (promptTrim (jsOr (.str p) (.str []))).mapError Stop.thrown =
      Except.ok (trimChars p) := by
    simp [jsOr, truthy, hpne, promptTrim, Except.mapError]
  rw [h1, exc_ok_bind]
  rw [if_neg hp]
  have h2 : (if truthy (.str b) = true then trimChars (jsToString (.str b)) else []) =
      trimChars b := by
    simp [truthy, hbne, jsToString]
  have h3 : trimChars (jsToString (jsOr (.str m) (.str []))) = trimChars m := by
    rw [jsOr_str_toString]
  rw [h2, h3, if_neg hm]
  have h4 : modelIds (trimChars b) (trimChars m) =
      Except.ok (S "local",
        if strStartsWith (S "local/") (lowerStr (trimChars m)) then (trimChars m).drop 6
        else trimChars m) := by
    simp only [modelIds]
    rw [if_pos hb]
    rfl
  rw [h4, exc_ok_bind]
  rw [show (resolveChecks (S "local", if strStartsWith (S "local/") (lowerStr (trimChars m))
      then (trimChars m).drop 6 else trimChars m).1 (trimChars b) env).mapError Stop.failEnv =
      Except.ok (resolveApiKey env (S "local")) by
    rw [show (S "local", if strStartsWith (S "local/") (lowerStr (trimChars m))
        then (trimChars m).drop 6 else trimChars m).1 = S "local" from rfl]
    rw [resolveChecks_local env hb]
    rfl]
  rw [exc_ok_bind]
  have h5 : strOrEmpty (jsOr (.str p) (.str [])) = p := by
    simp [jsOr, truthy, hpne, strOrEmpty]
  simp only [h5]
  rfl

theorem C8_local_override_witness :
    prepare (.obj [(S "params", .obj [(S "prompt", .str (S "hi")),
        (S "base_url", .str (S "http://h")), (S "model", .str (S "m1"))])]) [] =
      .ok ({ provider := S "local",
             modelName := if strStartsWith (S "local/") (lowerStr (trimChars (S "m1")))
               then (trimChars (S "m1")).drop 6 else trimChars (S "m1"),
             apiKey := resolveApiKey [] (S "local"), baseURL := trimChars (S "http://h"),
             prompt := S "hi", system := none, temperature := none, maxTokens := none,
             topP := none, stopSequences := none, timeoutMs := 60000 }, false) :=
  C8_local_override.1 (S "hi") (S "http://h") (S "m1") [] (by decide) (by decide) (by decide)

/-- Claim C10 (implicit): a prompt that is present and truthy but not a
string makes the `prompt.trim()` call throw; the top-level catch-all turns
the TypeError into an `error`-kind envelope — not the `params`-kind
failure used for a missing or blank prompt (second conjunct) — and the
process still writes exactly one envelope and exits 0 (third conjunct,
with the prompt set to the number 42). -/
theorem C10_nonstring_prompt :
    (∀ (v : JVal) (env : Env) (gen : GenRequest → Except (Option (List Char)) JVal),
      truthy v = true → v.isStr = false →
      mainModel (.obj [(S "params", .obj [(S "prompt", v)])]) env gen =
        .failure (S "error") (S "prompt.trim is not a function")) ∧
    (∀ (env : Env) (gen : GenRequest → Except (Option (List Char)) JVal),
      mainModel (.obj [(S "params", .obj [])]) env gen =
        .failure (S "params") (S "Required parameter \x27prompt\x27 was not provided.")) ∧
    runProgram (S "\x7b\"params\":\x7b\"prompt\":42\x7d\x7d") [] (fun _ => .error none) =
      ([.failure (S "error") (S "prompt.trim is not a function")], 0) := by
  refine ⟨?_, fun env gen => rfl, rfl⟩
  intro v env gen hv hstr
  unfold mainModel
  rw [prepare_eval_prompt]
  have h1 : jsOr v (.str []) = v := by simp [jsOr, hv]
  rw [h1, promptTrim_nonstr hstr]
  rfl

theorem C10_nonstring_prompt_witness :
    mainModel (.obj [(S "params", .obj [(S "prompt", .num 42)])]) [] (fun _ => .error none) =
      .failure (S "error") (S "prompt.trim is not a function") :=
  C10_nonstring_prompt.1 (.num 42) [] (fun _ => .error none) (by decide) rfl
